import Mathlib

/-!
Shallow embedding of the prescription-analysis core of `backend/main.py`:
the text parser `parse_prescription_text` (lines 25-56) and the per-entry
dosage assessment loop of the `/analyze` endpoint (lines 99-143).

Modelling conventions:
- Python `str` is modelled as `String` / `List Char`; character classes
  (`\w`, `\s`, `\d`, case mapping) are modelled over ASCII, which covers
  every input considered here.
- The three `re.findall` patterns and the `re.search` in the assessor are
  compiled by hand into deterministic matchers.  In each pattern every
  greedy piece (`\w+`, `\s+`, `\s*`, `\d+`, `(?:\.\d+)?`) is followed by a
  piece whose first character is disjoint from the class being repeated
  (word vs space vs digit vs `:`/`.`/unit letters), so Python backtracking
  never shortens a greedy run: maximal munch is exact.  The unit
  alternation `mg|ml|g|mcg|units?` sits at the end of each pattern, so the
  first alternative that matches is final, exactly as in Python.
- Python floats are modelled as exact rationals: `float(s)` of a decimal
  literal is its exact value, `0.9` is `9/10`, and the format `"%.1f"` is
  rounding half-to-even at one decimal.  This is exact on every magnitude
  appearing in the claims.
-/

namespace PrescriptionCore

/-- Python regex class `\w` (ASCII model): letters, digits and underscore. -/
def isWordChar (c : Char) : Bool := c.isAlphanum || c = '_'

/-- Python regex class `\s` / `str.strip` whitespace (ASCII model). -/
def isSpaceChar (c : Char) : Bool :=
  c = ' ' || c = '\t' || c = '\n' || c = '\r' || c = '\x0b' || c = '\x0c'

/-- Python regex class `\d` (ASCII model). -/
def isDigitChar (c : Char) : Bool := c.isDigit

/-- Python `str.split("\n")`. -/
def splitNl : List Char → List (List Char)
  | [] => [[]]
  | c :: cs =>
    if c = '\n' then [] :: splitNl cs
    else
      match splitNl cs with
      | l :: ls => (c :: l) :: ls
      | [] => [[c]]

/-- Python `str.strip()` (ASCII whitespace model). -/
def pyStrip (s : List Char) : List Char :=
  ((s.dropWhile isSpaceChar).reverse.dropWhile isSpaceChar).reverse

/-- Python `str.capitalize()` (ASCII model): first character upper-cased,
every remaining character lower-cased. -/
def pyCapitalize : List Char → List Char
  | [] => []
  | c :: cs => c.toUpper :: cs.map Char.toLower

/-- Case-insensitive literal match: `stripCI lit s` matches the (lower-case)
literal `lit` against a prefix of `s`, returning the matched prefix as it
appears in `s` together with the rest.  Models a regex literal under
`re.IGNORECASE`. -/
def stripCI : List Char → List Char → Option (List Char × List Char)
  | [], s => some ([], s)
  | _ :: _, [] => none
  | l :: ls, c :: cs =>
    if c.toLower = l then
      match stripCI ls cs with
      | some (m, r) => some (c :: m, r)
      | none => none
    else none

/-- The unit alternation `(?:mg|ml|g|mcg|units?)` under `re.IGNORECASE`,
alternatives tried in pattern order, the optional `s?` greedy.  Returns the
matched text (case preserved) and the rest. -/
def matchUnit (s : List Char) : Option (List Char × List Char) :=
  match stripCI ("mg".data) s with
  | some r => some r
  | none =>
  match stripCI ("ml".data) s with
  | some r => some r
  | none =>
  match stripCI ("g".data) s with
  | some r => some r
  | none =>
  match stripCI ("mcg".data) s with
  | some r => some r
  | none =>
  match stripCI ("unit".data) s with
  | some (m, rest) =>
    match stripCI ("s".data) rest with
    | some (m2, rest2) => some (m ++ m2, rest2)
    | none => some (m, rest)
  | none => none

/-- The number piece `\d+(?:\.\d+)?` (greedy), matched at the head of `s`:
returns the matched text and the rest, or `none` when `s` does not start
with a digit. -/
def matchNumber (s : List Char) : Option (List Char × List Char) :=
  let ds := s.takeWhile isDigitChar
  if ds.isEmpty then none
  else
    let rest := s.dropWhile isDigitChar
    match rest with
    | '.' :: r2 =>
      let fs := r2.takeWhile isDigitChar
      if fs.isEmpty then some (ds, rest)
      else some (ds ++ '.' :: fs, r2.dropWhile isDigitChar)
    | _ => some (ds, rest)

/-- Pattern 1, `(\w+)\s+(\d+(?:\.\d+)?\s*(?:mg|ml|g|mcg|units?))`, matched at
the head of `s`: returns (group 1, group 2, rest after the match). -/
def matchP1 (s : List Char) : Option (List Char × List Char × List Char) :=
  let w := s.takeWhile isWordChar
  if w.isEmpty then none
  else
    let r1 := s.dropWhile isWordChar
    let sp := r1.takeWhile isSpaceChar
    if sp.isEmpty then none
    else
      let r2 := r1.dropWhile isSpaceChar
      match matchNumber r2 with
      | none => none
      | some (num, r3) =>
        let sp2 := r3.takeWhile isSpaceChar
        let r4 := r3.dropWhile isSpaceChar
        match matchUnit r4 with
        | none => none
        | some (u, r5) => some (w, num ++ sp2 ++ u, r5)

/-- Pattern 2, `(\w+)\s*:\s*(\d+(?:\.\d+)?\s*(?:mg|ml|g|mcg|units?))`,
matched at the head of `s`. -/
def matchP2 (s : List Char) : Option (List Char × List Char × List Char) :=
  let w := s.takeWhile isWordChar
  if w.isEmpty then none
  else
    let r1 := (s.dropWhile isWordChar).dropWhile isSpaceChar
    match r1 with
    | ':' :: r2 =>
      let r3 := r2.dropWhile isSpaceChar
      match matchNumber r3 with
      | none => none
      | some (num, r4) =>
        let sp2 := r4.takeWhile isSpaceChar
        let r5 := r4.dropWhile isSpaceChar
        match matchUnit r5 with
        | none => none
        | some (u, r6) => some (w, num ++ sp2 ++ u, r6)
    | _ => none

/-- Pattern 3, `(\w+)\s+(\d+(?:\.\d+)?)\s*(mg|ml|g|mcg|units?)`, matched at
the head of `s`: returns (group 1, (group 2, group 3), rest). -/
def matchP3 (s : List Char) :
    Option (List Char × (List Char × List Char) × List Char) :=
  let w := s.takeWhile isWordChar
  if w.isEmpty then none
  else
    let r1 := s.dropWhile isWordChar
    let sp := r1.takeWhile isSpaceChar
    if sp.isEmpty then none
    else
      let r2 := r1.dropWhile isSpaceChar
      match matchNumber r2 with
      | none => none
      | some (num, r3) =>
        let r4 := r3.dropWhile isSpaceChar
        match matchUnit r4 with
        | none => none
        | some (u, r5) => some (w, (num, u), r5)

/-- Python `re.findall` scan for a head matcher `m`: try the matcher at every
position left to right, and on a hit continue after the matched span
(non-overlapping matches).  `fuel` bounds the scan; `s.length` is enough
because every step consumes at least one character. -/
def findallAux {γ : Type} (m : List Char → Option (γ × List Char)) :
    Nat → List Char → List γ
  | 0, _ => []
  | _, [] => []
  | fuel + 1, c :: cs =>
    match m (c :: cs) with
    | some (g, rest) => g :: findallAux m fuel rest
    | none => findallAux m fuel cs

/-- `re.findall(pattern1, line, re.IGNORECASE)`. -/
def findallP1 (s : List Char) : List (List Char × List Char) :=
  findallAux (fun t => (matchP1 t).map (fun r => ((r.1, r.2.1), r.2.2)))
    s.length s

/-- `re.findall(pattern2, line, re.IGNORECASE)`. -/
def findallP2 (s : List Char) : List (List Char × List Char) :=
  findallAux (fun t => (matchP2 t).map (fun r => ((r.1, r.2.1), r.2.2)))
    s.length s

/-- `re.findall(pattern3, line, re.IGNORECASE)`. -/
def findallP3 (s : List Char) : List (List Char × List Char × List Char) :=
  findallAux (fun t => (matchP3 t).map (fun r => ((r.1, r.2.1.1, r.2.1.2), r.2.2)))
    s.length s

/-- Appending one 2-group match (medicine name, dosage) to the two parallel
accumulator lists, `main.py` lines 47-50. -/
def addMatch2 (acc : List String × List String) (m : List Char × List Char) :
    List String × List String :=
  (acc.1 ++ [String.mk (pyCapitalize m.1)], acc.2 ++ [String.mk m.2])

/-- Appending one 3-group match (medicine name, number, unit) to the two
parallel accumulator lists, `main.py` lines 51-54: the dosage is
`"{number} {unit}"`. -/
def addMatch3 (acc : List String × List String)
    (m : List Char × List Char × List Char) : List String × List String :=
  (acc.1 ++ [String.mk (pyCapitalize m.1)],
   acc.2 ++ [String.mk (m.2.1 ++ ' ' :: m.2.2)])

/-- Processing one line of the input, `main.py` lines 38-54: strip, skip if
blank, then run the three patterns in order, every match of every pattern
appending one medicine and one dosage. -/
def processLine (acc : List String × List String) (line : List Char) :
    List String × List String :=
  let line := pyStrip line
  if line.isEmpty then acc
  else
    let acc := (findallP1 line).foldl addMatch2 acc
    let acc := (findallP2 line).foldl addMatch2 acc
    (findallP3 line).foldl addMatch3 acc

/-- `parse_prescription_text` (`main.py` lines 25-56): returns the parallel
lists (medications, dosages). -/
def parse_prescription_text (text : String) : List String × List String :=
  (splitNl text.data).foldl processLine ([], [])

/-- One output record of the analysis, `main.py` lines 130-134. -/
structure Record where
  medicine : String
  status : String
  info : String
deriving DecidableEq

/-- First match of `re.findall(r'(\d+(?:\.\d+)?)', s)`: the leftmost maximal
numeric substring, used at `main.py` lines 106-108. -/
def firstNumber : List Char → Option (List Char)
  | [] => none
  | c :: cs =>
    match matchNumber (c :: cs) with
    | some (n, _) => some n
    | none => firstNumber cs

/-- `re.search(r'(mg|ml|g|mcg|units?)', s, re.IGNORECASE)`: the match at the
leftmost position where the alternation matches, `main.py` line 109. -/
def searchUnit : List Char → Option (List Char)
  | [] => none
  | c :: cs =>
    match matchUnit (c :: cs) with
    | some (u, _) => some u
    | none => searchUnit cs

/-- Value of a digit run as a natural number. -/
def digitsToNat (ds : List Char) : Nat :=
  ds.foldl (fun a c => a * 10 + (c.toNat - ('0').toNat)) 0

/-- Python `float(s)` for a string matching `\d+(\.\d+)?`, modelled as the
exact rational value of the decimal literal. -/
def numValue (s : List Char) : ℚ :=
  let ip := s.takeWhile isDigitChar
  let rest := s.dropWhile isDigitChar
  match rest with
  | '.' :: fs => (digitsToNat ip : ℚ) + (digitsToNat fs : ℚ) / ((10 : ℚ) ^ fs.length)
  | _ => (digitsToNat ip : ℚ)

/-- The per-unit safety threshold, `main.py` lines 113-118: `mg` and `g` hit
the first branch (500 resp. 5), `ml` the second (50), everything else 100. -/
def safeThreshold (unit : List Char) : ℚ :=
  let u := unit.map Char.toLower
  if u = ("mg".data) || u = ("g".data) then
    if u = ("mg".data) then 500 else 5
  else if u = ("ml".data) then 50
  else 100

/-- Round half to even, for a nonnegative rational. -/
def roundHalfEvenNN (q : ℚ) : Nat :=
  let a := q.num.toNat
  let b := q.den
  let d := a / b
  let r := a % b
  if 2 * r < b then d
  else if b < 2 * r then d + 1
  else if d % 2 = 0 then d else d + 1

/-- Python `f"{x:.1f}"` for the nonnegative values arising here, with the
float modelled as an exact rational: round half to even at one decimal. -/
def format1f (q : ℚ) : String :=
  let n := roundHalfEvenNN (q * 10)
  String.mk ((Nat.toDigits 10 (n / 10)) ++ '.' :: (Nat.toDigits 10 (n % 10)))

/-- The unit extraction at `main.py` lines 109-110: `re.search` for the unit
alternation, defaulting to `"units"` when absent. -/
def extractedUnit (current_dosage : String) : List Char :=
  match searchUnit current_dosage.data with
  | some u => u
  | none => "units".data

/-- Body of the `try` block at `main.py` lines 105-125, as a function of the
raw dosage string: computes (status, info).  In the source this body can in
principle raise; every operation of this model is total, so the `Except`
error case models a raised exception and is never produced here. -/
def assessInner (current_dosage : String) : Except Unit (String × String) :=
  match firstNumber current_dosage.data with
  | some numStr =>
    let number : ℚ := numValue numStr
    let unit : List Char := extractedUnit current_dosage
    let safe_threshold := safeThreshold unit
    let status := if number ≤ safe_threshold then ("Safe" : String) else ("Review Required" : String)
    let recommended :=
      if safe_threshold < number then format1f (number * (9 / 10)) ++ " " ++ String.mk unit
      else current_dosage
    Except.ok (status, ("Current: ") ++ current_dosage ++ (", Recommended: ") ++ recommended)
  | none =>
    Except.ok (("Review Required" : String),
      ("Current: ") ++ current_dosage ++ (", Unable to parse dosage"))

/-- The `except` handler at `main.py` lines 126-128 around the result of the
`try` block: a failure degrades to `Review Required` with the fixed
explanation; a normal result is packaged into the record appended at lines
130-134. -/
def handleAssess (r : Except Unit (String × String)) (med current_dosage : String) :
    Record :=
  match r with
  | Except.ok (s, i) => ⟨med, s, i⟩
  | Except.error _ =>
    ⟨med, "Review Required",
     ("Current: ") ++ current_dosage ++ (", Unable to calculate recommendation")⟩

/-- One iteration of the analysis loop, `main.py` lines 104-134, for a given
medicine and raw dosage string. -/
def assess (med current_dosage : String) : Record :=
  handleAssess (assessInner current_dosage) med current_dosage

/-- The `for i, med in enumerate(medications)` loop of `main.py` lines
100-134: the i-th medicine is paired with `dosages[i]` when `i <
len(dosages)` and with `"Unknown"` otherwise (line 101). -/
def buildAnalysis (dosages : List String) : List String → Nat → List Record
  | [], _ => []
  | med :: meds, i =>
    assess med (dosages.getD i ("Unknown")) :: buildAnalysis dosages meds (i + 1)

/-- The fallback record of `main.py` lines 137-143 for a source label. -/
def fallbackRecord (file_type : String) : Record :=
  ⟨"No medications detected", "Review Required",
   ("Please ensure the ") ++ file_type ++ (" contains clear prescription information")⟩

/-- The analysis stage of `main.py` lines 99-143 on already-extracted
parallel lists: one record per medicine, then the fallback when the list of
records is empty. -/
def analyze_core (medications dosages : List String) (file_type : String) :
    List Record :=
  let analysis := buildAnalysis dosages medications 0
  if analysis.isEmpty then [fallbackRecord file_type] else analysis

/-- The text-to-records pipeline of the `/analyze` endpoint: parse, then
analyze; `file_type` is the caller-supplied source label used only in the
fallback record. -/
def analyze_prescription (text : String) (file_type : String) : List Record :=
  analyze_core (parse_prescription_text text).1 (parse_prescription_text text).2
    file_type

/-- Threshold table as the specification words it: 500 for `mg`, 5 for `g`,
50 for `ml`, 100 for every other unit, compared case-insensitively.  Stated
separately from `safeThreshold` (which mirrors the branch structure of the
code) so the two can be compared. -/
def specThreshold (unit : List Char) : ℚ :=
  let u := unit.map Char.toLower
  if u = ("mg".data) then 500
  else if u = ("g".data) then 5
  else if u = ("ml".data) then 50
  else 100

/-- Name transform as the specification words it: only the first character
is forced upper-case and every remaining character passes through
unchanged.  Stated separately from `pyCapitalize` (the transform the code
actually applies) so the two can be compared. -/
def specCapitalizeFirstOnly : List Char → List Char
  | [] => []
  | c :: cs => c.toUpper :: cs

/-- A medicine name as actually emitted by the extractor: the image under
`pyCapitalize` of some nonempty word-character token. -/
def isCapToken (med : String) : Prop :=
  ∃ w : List Char, w ≠ [] ∧ (∀ c ∈ w, isWordChar c = true) ∧
    med = String.mk (pyCapitalize w)

/- ------------------------------------------------------------------ -/
/- Helper lemmas                                                       -/
/- ------------------------------------------------------------------ -/

theorem buildAnalysis_length (dosages : List String) :
    ∀ (meds : List String) (i : Nat),
      (buildAnalysis dosages meds i).length = meds.length := by
  intro meds
  induction meds with
  | nil => intro i; rfl
  | cons m ms ih => intro i; simp [buildAnalysis, ih]

theorem foldl_addMatch2_len (ms : List (List Char × List Char)) :
    ∀ acc : List String × List String, acc.1.length = acc.2.length →
      (ms.foldl addMatch2 acc).1.length = (ms.foldl addMatch2 acc).2.length := by
  induction ms with
  | nil => intro acc h; exact h
  | cons m ms ih => intro acc h; exact ih _ (by simp [addMatch2, h])

theorem foldl_addMatch3_len (ms : List (List Char × List Char × List Char)) :
    ∀ acc : List String × List String, acc.1.length = acc.2.length →
      (ms.foldl addMatch3 acc).1.length = (ms.foldl addMatch3 acc).2.length := by
  induction ms with
  | nil => intro acc h; exact h
  | cons m ms ih => intro acc h; exact ih _ (by simp [addMatch3, h])

theorem processLine_len (acc : List String × List String) (line : List Char)
    (h : acc.1.length = acc.2.length) :
    (processLine acc line).1.length = (processLine acc line).2.length := by
  simp only [processLine]
  split
  · exact h
  · exact foldl_addMatch3_len _ _ (foldl_addMatch2_len _ _ (foldl_addMatch2_len _ _ h))

theorem foldl_processLine_len (lines : List (List Char)) :
    ∀ acc : List String × List String, acc.1.length = acc.2.length →
      (lines.foldl processLine acc).1.length =
        (lines.foldl processLine acc).2.length := by
  induction lines with
  | nil => intro acc h; exact h
  | cons l ls ih => intro acc h; exact ih _ (processLine_len _ _ h)

theorem parse_lengths (text : String) :
    (parse_prescription_text text).1.length =
      (parse_prescription_text text).2.length :=
  foldl_processLine_len _ _ rfl

theorem buildAnalysis_zip (dosages : List String) :
    ∀ (meds : List String) (i : Nat), i + meds.length ≤ dosages.length →
      buildAnalysis dosages meds i =
        (meds.zip (dosages.drop i)).map (fun p => assess p.1 p.2) := by
  intro meds
  induction meds with
  | nil => intro i _; rfl
  | cons m ms ih =>
    intro i h
    simp only [List.length_cons] at h
    have hi : i < dosages.length := by omega
    have hdrop : dosages.drop i = dosages[i] :: dosages.drop (i + 1) :=
      List.drop_eq_getElem_cons hi
    have hd : dosages.getD i ("Unknown") = dosages[i] :=
      List.getD_eq_getElem dosages _ hi
    simp only [buildAnalysis, hd, hdrop, List.zip_cons_cons, List.map_cons,
      List.cons.injEq]
    exact ⟨trivial, ih (i + 1) (by omega)⟩

theorem firstNumber_eq_none {l : List Char}
    (h : ∀ c ∈ l, isDigitChar c = false) : firstNumber l = none := by
  induction l with
  | nil => rfl
  | cons c cs ih =>
    have hc : isDigitChar c = false := h c (List.mem_cons_self c cs)
    have hm : matchNumber (c :: cs) = none := by
      simp [matchNumber, List.takeWhile_cons, hc]
    simp only [firstNumber, hm]
    exact ih fun x hx => h x (List.mem_cons_of_mem _ hx)

theorem assess_of_firstNumber_none {raw : String} (med : String)
    (h : firstNumber raw.data = none) :
    assess med raw =
      ⟨med, "Review Required",
       ("Current: ") ++ raw ++ (", Unable to parse dosage")⟩ := by
  simp [assess, assessInner, handleAssess, h]

theorem assess_of_firstNumber_some {raw : String} {n : List Char} (med : String)
    (h : firstNumber raw.data = some n) :
    assess med raw =
      ⟨med,
       if numValue n ≤ safeThreshold (extractedUnit raw) then "Safe"
       else "Review Required",
       ("Current: ") ++ raw ++ (", Recommended: ") ++
         (if safeThreshold (extractedUnit raw) < numValue n then
            format1f (numValue n * (9 / 10)) ++ " " ++ String.mk (extractedUnit raw)
          else raw)⟩ := by
  simp [assess, assessInner, handleAssess, h]

theorem matchP1_group1 {s g1 g2 rest : List Char}
    (h : matchP1 s = some (g1, g2, rest)) :
    g1 ≠ [] ∧ ∀ c ∈ g1, isWordChar c = true := by
  cases hE : (s.takeWhile isWordChar).isEmpty with
  | true => simp [matchP1, hE] at h
  | false =>
    have hg : g1 = s.takeWhile isWordChar := by
      simp only [matchP1] at h
      split at h
      · exact absurd h (by simp)
      · split at h
        · exact absurd h (by simp)
        · split at h
          · exact absurd h (by simp)
          · split at h
            · exact absurd h (by simp)
            · simp only [Option.some.injEq, Prod.mk.injEq] at h
              exact h.1.symm
    subst hg
    refine ⟨?_, fun c hc => List.mem_takeWhile_imp hc⟩
    intro hnil
    rw [hnil] at hE
    simp at hE

theorem matchP2_group1 {s g1 g2 rest : List Char}
    (h : matchP2 s = some (g1, g2, rest)) :
    g1 ≠ [] ∧ ∀ c ∈ g1, isWordChar c = true := by
  cases hE : (s.takeWhile isWordChar).isEmpty with
  | true => simp [matchP2, hE] at h
  | false =>
    have hg : g1 = s.takeWhile isWordChar := by
      simp only [matchP2] at h
      split at h
      · exact absurd h (by simp)
      · split at h
        · split at h
          · exact absurd h (by simp)
          · split at h
            · exact absurd h (by simp)
            · simp only [Option.some.injEq, Prod.mk.injEq] at h
              exact h.1.symm
        · exact absurd h (by simp)
    subst hg
    refine ⟨?_, fun c hc => List.mem_takeWhile_imp hc⟩
    intro hnil
    rw [hnil] at hE
    simp at hE

theorem matchP3_group1 {s : List Char} {g1 : List Char}
    {g23 : List Char × List Char} {rest : List Char}
    (h : matchP3 s = some (g1, g23, rest)) :
    g1 ≠ [] ∧ ∀ c ∈ g1, isWordChar c = true := by
  cases hE : (s.takeWhile isWordChar).isEmpty with
  | true => simp [matchP3, hE] at h
  | false =>
    have hg : g1 = s.takeWhile isWordChar := by
      simp only [matchP3] at h
      split at h
      · exact absurd h (by simp)
      · split at h
        · exact absurd h (by simp)
        · split at h
          · exact absurd h (by simp)
          · split at h
            · exact absurd h (by simp)
            · simp only [Option.some.injEq, Prod.mk.injEq] at h
              exact h.1.symm
    subst hg
    refine ⟨?_, fun c hc => List.mem_takeWhile_imp hc⟩
    intro hnil
    rw [hnil] at hE
    simp at hE

theorem findallAux_forall {γ : Type} (m : List Char → Option (γ × List Char))
    (Q : γ → Prop) (hm : ∀ s g rest, m s = some (g, rest) → Q g) :
    ∀ (fuel : Nat) (s : List Char), ∀ g ∈ findallAux m fuel s, Q g := by
  intro fuel
  induction fuel with
  | zero => intro s g hg; simp [findallAux] at hg
  | succ n ih =>
    intro s g hg
    cases s with
    | nil => simp [findallAux] at hg
    | cons c cs =>
      simp only [findallAux] at hg
      cases hmc : m (c :: cs) with
      | none =>
        rw [hmc] at hg
        exact ih cs g hg
      | some p =>
        cases p with
        | mk g0 rest0 =>
          rw [hmc] at hg
          rcases List.mem_cons.mp hg with h1 | h2
          · exact h1 ▸ hm (c :: cs) g0 rest0 hmc
          · exact ih rest0 g h2

theorem findallP1_forall (s : List Char) :
    ∀ p ∈ findallP1 s, p.1 ≠ [] ∧ ∀ c ∈ p.1, isWordChar c = true := by
  intro p hp
  refine findallAux_forall _
    (fun q : List Char × List Char => q.1 ≠ [] ∧ ∀ c ∈ q.1, isWordChar c = true)
    ?_ _ _ p hp
  intro t g rest h
  cases hm : matchP1 t with
  | none => rw [hm] at h; exact absurd h (by simp)
  | some r =>
    rw [hm] at h
    simp only [Option.map_some', Option.some.injEq] at h
    have h1 : (r.1, r.2.1) = g := congrArg Prod.fst h
    subst h1
    exact matchP1_group1 hm

theorem findallP2_forall (s : List Char) :
    ∀ p ∈ findallP2 s, p.1 ≠ [] ∧ ∀ c ∈ p.1, isWordChar c = true := by
  intro p hp
  refine findallAux_forall _
    (fun q : List Char × List Char => q.1 ≠ [] ∧ ∀ c ∈ q.1, isWordChar c = true)
    ?_ _ _ p hp
  intro t g rest h
  cases hm : matchP2 t with
  | none => rw [hm] at h; exact absurd h (by simp)
  | some r =>
    rw [hm] at h
    simp only [Option.map_some', Option.some.injEq] at h
    have h1 : (r.1, r.2.1) = g := congrArg Prod.fst h
    subst h1
    exact matchP2_group1 hm

theorem findallP3_forall (s : List Char) :
    ∀ p ∈ findallP3 s, p.1 ≠ [] ∧ ∀ c ∈ p.1, isWordChar c = true := by
  intro p hp
  refine findallAux_forall _
    (fun q : List Char × List Char × List Char =>
      q.1 ≠ [] ∧ ∀ c ∈ q.1, isWordChar c = true)
    ?_ _ _ p hp
  intro t g rest h
  cases hm : matchP3 t with
  | none => rw [hm] at h; exact absurd h (by simp)
  | some r =>
    rw [hm] at h
    simp only [Option.map_some', Option.some.injEq] at h
    have h1 : (r.1, r.2.1.1, r.2.1.2) = g := congrArg Prod.fst h
    subst h1
    exact matchP3_group1 hm

theorem foldl_addMatch2_mem (P : String → Prop)
    (ms : List (List Char × List Char)) :
    ∀ acc : List String × List String, (∀ x ∈ acc.1, P x) →
      (∀ p ∈ ms, P (String.mk (pyCapitalize p.1))) →
      ∀ x ∈ (ms.foldl addMatch2 acc).1, P x := by
  induction ms with
  | nil => intro acc h _; exact h
  | cons q qs ih =>
    intro acc h hq
    refine ih (addMatch2 acc q) ?_ fun p hp => hq p (List.mem_cons_of_mem _ hp)
    intro y hy
    simp only [addMatch2, List.mem_append, List.mem_singleton] at hy
    rcases hy with hy | rfl
    · exact h y hy
    · exact hq q (List.mem_cons_self q qs)

theorem foldl_addMatch3_mem (P : String → Prop)
    (ms : List (List Char × List Char × List Char)) :
    ∀ acc : List String × List String, (∀ x ∈ acc.1, P x) →
      (∀ p ∈ ms, P (String.mk (pyCapitalize p.1))) →
      ∀ x ∈ (ms.foldl addMatch3 acc).1, P x := by
  induction ms with
  | nil => intro acc h _; exact h
  | cons q qs ih =>
    intro acc h hq
    refine ih (addMatch3 acc q) ?_ fun p hp => hq p (List.mem_cons_of_mem _ hp)
    intro y hy
    simp only [addMatch3, List.mem_append, List.mem_singleton] at hy
    rcases hy with hy | rfl
    · exact h y hy
    · exact hq q (List.mem_cons_self q qs)

theorem processLine_mem (P : String → Prop)
    (hP : ∀ w : List Char, w ≠ [] → (∀ c ∈ w, isWordChar c = true) →
      P (String.mk (pyCapitalize w)))
    (acc : List String × List String) (line : List Char)
    (h : ∀ x ∈ acc.1, P x) :
    ∀ x ∈ (processLine acc line).1, P x := by
  simp only [processLine]
  split
  · exact h
  · have h1 := foldl_addMatch2_mem P (findallP1 (pyStrip line)) acc h
      fun p hp => hP p.1 (findallP1_forall _ p hp).1 (findallP1_forall _ p hp).2
    have h2 := foldl_addMatch2_mem P (findallP2 (pyStrip line)) _ h1
      fun p hp => hP p.1 (findallP2_forall _ p hp).1 (findallP2_forall _ p hp).2
    exact foldl_addMatch3_mem P (findallP3 (pyStrip line)) _ h2
      fun p hp => hP p.1 (findallP3_forall _ p hp).1 (findallP3_forall _ p hp).2

theorem foldl_processLine_mem (P : String → Prop)
    (hP : ∀ w : List Char, w ≠ [] → (∀ c ∈ w, isWordChar c = true) →
      P (String.mk (pyCapitalize w)))
    (lines : List (List Char)) :
    ∀ acc : List String × List String, (∀ x ∈ acc.1, P x) →
      ∀ x ∈ (lines.foldl processLine acc).1, P x := by
  induction lines with
  | nil => intro acc h; exact h
  | cons l ls ih => intro acc h; exact ih _ (processLine_mem P hP acc l h)

/- ------------------------------------------------------------------ -/
/- Claim theorems                                                      -/
/- ------------------------------------------------------------------ -/

/-- Claim C1 is false as stated: on the input text "Amoxicillin 500mg" the
pipeline does not produce exactly one record with medicine "Amoxicillin",
status Safe and info "Current: 500mg, Recommended: 500mg".  Pattern 1 and
pattern 3 both match the line, so a second record is emitted as well. -/
theorem C1_counterexample :
    analyze_prescription ("Amoxicillin 500mg") ("text file") ≠
      [⟨"Amoxicillin", "Safe", "Current: 500mg, Recommended: 500mg"⟩] := by
  decide

/-- Claim C1 (amended): on the input text "Amoxicillin 500mg" the pipeline
produces exactly two records, both with medicine "Amoxicillin" and status
Safe: the first (from pattern 1) with info "Current: 500mg, Recommended:
500mg" and the second (from the overlapping pattern 3) with info
"Current: 500 mg, Recommended: 500 mg". -/
theorem C1_theorem :
    analyze_prescription ("Amoxicillin 500mg") ("text file") =
      [⟨"Amoxicillin", "Safe", "Current: 500mg, Recommended: 500mg"⟩,
       ⟨"Amoxicillin", "Safe", "Current: 500 mg, Recommended: 500 mg"⟩] := by
  decide

/-- Claim C2 is false as stated: on "ABc 5mg" the matched word token is
"ABc"; forcing only its first character to upper-case and passing the rest
through unchanged would give "ABc", but the extractor emits "Abc" (the
remaining characters are lower-cased). -/
theorem C2_counterexample :
    (parse_prescription_text ("ABc 5mg")).1.head? = some ("Abc") ∧
    String.mk (specCapitalizeFirstOnly (String.data ("ABc"))) = ("ABc") ∧
    ("Abc" : String) ≠ ("ABc") := by
  decide

/-- Claim C2 (amended): every emitted medicine name is `pyCapitalize` of a
nonempty word-character token: the first character is forced upper-case and
every remaining character is lower-cased (Python `str.capitalize`), not
passed through unchanged. -/
theorem C2_theorem :
    ∀ (text : String), ∀ med ∈ (parse_prescription_text text).1,
      isCapToken med := by
  intro text med hmed
  refine foldl_processLine_mem isCapToken
    (fun w h1 h2 => ⟨w, h1, h2, rfl⟩) _ _ ?_ med hmed
  intro x hx
  exact absurd hx (List.not_mem_nil x)

/-- Witness for C2: the medicine emitted from "ABc 5mg" is an instance of
the amended transform. -/
theorem C2_witness : isCapToken ("Abc") :=
  C2_theorem ("ABc 5mg") ("Abc") (by decide)

/-- Claim C3: the threshold table of the code agrees with the table of the
specification (500 for mg, 5 for g, 50 for ml, 100 for everything else,
case-insensitively), and whenever a numeric magnitude is extracted the
status is "Safe" exactly when the magnitude is at most the threshold of the
extracted unit, and "Review Required" otherwise. -/
theorem C3_theorem :
    (∀ u : List Char, safeThreshold u = specThreshold u) ∧
    ∀ (med raw : String) (n : List Char), firstNumber raw.data = some n →
      (assess med raw).status =
        (if numValue n ≤ specThreshold (extractedUnit raw) then ("Safe" : String)
         else ("Review Required" : String)) := by
  have hthr : ∀ u : List Char, safeThreshold u = specThreshold u := by
    intro u
    simp only [safeThreshold, specThreshold]
    split_ifs <;> simp_all
  refine ⟨hthr, ?_⟩
  intro med raw n h
  simp only [assess_of_firstNumber_some med h, hthr]

/-- Witness for C3: on the dosage "500mg" the magnitude 500 equals the mg
threshold 500 and the status is the Safe side of the boundary. -/
theorem C3_witness :
    firstNumber (String.data ("500mg")) = some (String.data ("500")) ∧
    (assess ("Amoxicillin") ("500mg")).status =
      (if numValue (String.data ("500")) ≤
          specThreshold (extractedUnit ("500mg")) then ("Safe" : String)
       else ("Review Required" : String)) :=
  ⟨by decide, C3_theorem.2 ("Amoxicillin") ("500mg") (String.data ("500")) (by decide)⟩

/-- Claim C4: when a magnitude was extracted, a Safe record recommends the
raw dosage unchanged, and a Review Required record recommends the magnitude
times 0.9 formatted to one decimal place followed by a space and the unit;
in both cases the info field is "Current: {rawDosage}, Recommended:
{recommended}". -/
theorem C4_theorem :
    ∀ (med raw : String) (n : List Char), firstNumber raw.data = some n →
      ((assess med raw).status = ("Safe" : String) →
        (assess med raw).info =
          ("Current: ") ++ raw ++ (", Recommended: ") ++ raw) ∧
      ((assess med raw).status = ("Review Required" : String) →
        (assess med raw).info =
          ("Current: ") ++ raw ++ (", Recommended: ") ++
            (format1f (numValue n * (9 / 10)) ++ (" ") ++
              String.mk (extractedUnit raw))) := by
  intro med raw n h
  rw [assess_of_firstNumber_some med h]
  by_cases hle : numValue n ≤ safeThreshold (extractedUnit raw)
  · have hnlt : ¬ safeThreshold (extractedUnit raw) < numValue n := not_lt.mpr hle
    constructor
    · intro _
      simp [hnlt]
    · intro hst
      simp [hle] at hst
  · have hlt : safeThreshold (extractedUnit raw) < numValue n := not_le.mp hle
    constructor
    · intro hst
      simp [hle] at hst
    · intro _
      simp [hlt]

/-- Witness for C4: "600mg" exceeds the mg threshold and the record
recommends "540.0 mg". -/
theorem C4_witness :
    firstNumber (String.data ("600mg")) = some (String.data ("600")) ∧
    (assess ("Ibuprofen") ("600mg")).info =
      ("Current: 600mg, Recommended: 540.0 mg") := by
  refine ⟨by decide, ?_⟩
  have h := (C4_theorem ("Ibuprofen") ("600mg") (String.data ("600"))
    (by decide)).2 (by decide)
  exact h.trans (by with_unfolding_all rfl)

/-- Claim C5: for every input text the pipeline emits `max 1 n` records,
where `n` is the number of extracted entries: one record per entry and a
single fallback record when there are none. -/
theorem C5_theorem :
    ∀ (text src : String),
      (analyze_prescription text src).length =
        max 1 (parse_prescription_text text).1.length := by
  intro text src
  simp only [analyze_prescription, analyze_core]
  cases hm : (parse_prescription_text text).1 with
  | nil => simp [buildAnalysis]
  | cons m ms =>
    have hlen := buildAnalysis_length (parse_prescription_text text).2 (m :: ms) 0
    have hne : buildAnalysis (parse_prescription_text text).2 (m :: ms) 0 ≠ [] := by
      intro hh
      rw [hh] at hlen
      simp at hlen
    have hE : (buildAnalysis (parse_prescription_text text).2 (m :: ms) 0).isEmpty
        = false := by
      cases hb : buildAnalysis (parse_prescription_text text).2 (m :: ms) 0 with
      | nil => exact absurd hb hne
      | cons a as => rfl
    rw [hE]
    simp only [Bool.false_eq_true, if_false]
    rw [hlen]
    simp only [List.length_cons]
    omega

/-- Claim C6: a raw dosage string without any digit is assessed immediately
as Review Required with info "Current: {rawDosage}, Unable to parse
dosage". -/
theorem C6_theorem :
    ∀ (med raw : String), (∀ c ∈ raw.data, isDigitChar c = false) →
      assess med raw =
        ⟨med, "Review Required",
         ("Current: ") ++ raw ++ (", Unable to parse dosage")⟩ :=
  fun med _ h => assess_of_firstNumber_none med (firstNumber_eq_none h)

/-- Witness for C6: the digit-free dosage "Unknown". -/
theorem C6_witness :
    (∀ c ∈ String.data ("Unknown"), isDigitChar c = false) ∧
    assess ("X") ("Unknown") =
      ⟨"X", "Review Required", ("Current: Unknown, Unable to parse dosage")⟩ := by
  refine ⟨by decide, ?_⟩
  exact (C6_theorem ("X") ("Unknown") (by decide)).trans (by decide)

/-- Claim C7: the assessment step is total: it always yields a well-formed
record carrying the given medicine name and a status that is either "Safe"
or "Review Required"; the exception handler it runs under maps any failure
signal to the Review Required record with info "Current: {rawDosage},
Unable to calculate recommendation". -/
theorem C7_theorem :
    ∀ (med raw : String),
      (assess med raw).medicine = med ∧
      ((assess med raw).status = ("Safe" : String) ∨
        (assess med raw).status = ("Review Required" : String)) ∧
      (∀ e : Unit, handleAssess (Except.error e) med raw =
        ⟨med, "Review Required",
         ("Current: ") ++ raw ++ (", Unable to calculate recommendation")⟩) := by
  intro med raw
  refine ⟨?_, ?_, fun e => rfl⟩
  · cases hn : firstNumber raw.data with
    | none => rw [assess_of_firstNumber_none med hn]
    | some n => rw [assess_of_firstNumber_some med hn]
  · cases hn : firstNumber raw.data with
    | none =>
      rw [assess_of_firstNumber_none med hn]
      right
      rfl
    | some n =>
      rw [assess_of_firstNumber_some med hn]
      by_cases hle : numValue n ≤ safeThreshold (extractedUnit raw)
      · left
        simp [hle]
      · right
        simp [hle]

/-- Claim C8: whenever extraction yields no entries the pipeline output is
exactly the single fallback record built from the caller-supplied source
label. -/
theorem C8_theorem :
    ∀ (text src : String), (parse_prescription_text text).1 = [] →
      analyze_prescription text src =
        [⟨"No medications detected", "Review Required",
          ("Please ensure the ") ++ src ++
            (" contains clear prescription information")⟩] := by
  intro text src h
  simp only [analyze_prescription, analyze_core, h]
  rfl

/-- Witness for C8: the empty input text extracts nothing and yields the
fallback record for the "text file" source label. -/
theorem C8_witness :
    (parse_prescription_text ("")).1 = [] ∧
    analyze_prescription ("") ("text file") =
      [⟨"No medications detected", "Review Required",
        ("Please ensure the text file contains clear prescription information")⟩] := by
  refine ⟨by decide, ?_⟩
  exact (C8_theorem ("") ("text file") (by decide)).trans (by decide)

/-- Claim C9: the pipeline is deterministic: two invocations of the
extraction-and-assessment transform on the same text and source label give
the same output sequence.  The embedding is a pure function, mirroring the
fact that the source computes only from its arguments and local state. -/
theorem C9_theorem :
    ∀ (text src : String),
      analyze_prescription text src = analyze_prescription text src :=
  fun _ _ => rfl

/-- Claim C10: the extractor always returns medication and dosage lists of
equal length, and consequently the analysis is exactly the assessment of
the zipped pairs (with the fallback for the empty case): the "Unknown"
substitution of the index-alignment guard is never exercised. -/
theorem C10_theorem :
    ∀ (text src : String),
      (parse_prescription_text text).1.length =
        (parse_prescription_text text).2.length ∧
      analyze_prescription text src =
        (if (parse_prescription_text text).1.isEmpty then [fallbackRecord src]
         else ((parse_prescription_text text).1.zip
            (parse_prescription_text text).2).map
              (fun p => assess p.1 p.2)) := by
  intro text src
  refine ⟨parse_lengths text, ?_⟩
  simp only [analyze_prescription, analyze_core]
  cases hm : (parse_prescription_text text).1 with
  | nil => simp [buildAnalysis]
  | cons m ms =>
    have hlen : (m :: ms).length ≤ (parse_prescription_text text).2.length := by
      rw [← hm]
      exact le_of_eq (parse_lengths text)
    have hz := buildAnalysis_zip (parse_prescription_text text).2 (m :: ms) 0
      (by simpa using hlen)
    rw [List.drop_zero] at hz
    rw [hz]
    cases hd : (parse_prescription_text text).2 with
    | nil =>
      rw [hd] at hlen
      simp at hlen
    | cons d ds =>
      simp [List.zip_cons_cons]

end PrescriptionCore
